import Mathlib

/-!
Verification development for the HuggingFace ONNX model downloader script
(`src/models/download_model.py`).  The Python script is shallowly embedded:
pure string manipulation becomes Lean functions over `String`/`List Char`,
the filesystem and network effects of `download_files` are abstracted into an
existing-files list plus a fetch-success oracle, and `argparse`'s documented
termination behaviour is modelled explicitly.
-/

namespace DownloadModel

/-! ## Python string primitives

The script relies on a handful of Python `str` operations: `in` (substring
test), `endswith`, `lower`, `strip`, `replace`, and `split(",")`.  They are
modelled here over `List Char`; all strings occurring in the script are
ASCII, so `lower` is the ASCII case map. -/

/-- Python `pat in s` on lists of characters: `pat` occurs as a contiguous
infix of `s` (the empty pattern always occurs). -/
def listInfix (pat : List Char) : List Char → Bool
  | [] => pat.isEmpty
  | c :: rest => pat.isPrefixOf (c :: rest) || listInfix pat rest

/-- Python `pat in s` for strings. -/
def pyContains (s pat : String) : Bool :=
  listInfix pat.data s.data

/-- Python `s.endswith(suffix)`. -/
def pyEndsWith (s suffix : String) : Bool :=
  suffix.data.isSuffixOf s.data

/-- ASCII lower-casing of one character, as Python `str.lower` acts on the
ASCII letters (every string the script matches against is ASCII). -/
def pyLowerChar (c : Char) : Char :=
  if 'A' ≤ c && c ≤ 'Z' then Char.ofNat (c.toNat + 32) else c

/-- Python `s.lower()` restricted to ASCII strings. -/
def pyLower (s : String) : String :=
  ⟨s.data.map pyLowerChar⟩

/-- The ASCII whitespace characters stripped by Python `str.strip()`. -/
def isPySpace (c : Char) : Bool :=
  c == ' ' || c == '\t' || c == '\n' || c == '\r' || c == '\x0b' || c == '\x0c'

/-- Python `s.strip()`: drop leading and trailing whitespace. -/
def pyStrip (s : String) : String :=
  ⟨((s.data.dropWhile isPySpace).reverse.dropWhile isPySpace).reverse⟩

/-- Python `s.replace("/", "-")`: replace every slash by a dash. -/
def replaceSlashWithDash (s : String) : String :=
  ⟨s.data.map (fun c => if c == '/' then '-' else c)⟩

/-- Splitting a character list at every occurrence of a separator character,
with an accumulator for the current piece. -/
def splitOnCharGo (sep : Char) : List Char → List Char → List (List Char)
  | [], acc => [acc.reverse]
  | c :: rest, acc =>
    match c == sep with
    | true => acc.reverse :: splitOnCharGo sep rest []
    | false => splitOnCharGo sep rest (c :: acc)

/-- Python `s.split(sep)` for a one-character separator: split at every
occurrence, keeping empty pieces (so the result is never empty). -/
def pySplit (s : String) (sep : Char) : List String :=
  (splitOnCharGo sep s.data []).map (fun l => ⟨l⟩)

/-- Python `pathlib.Path(s).name`: the final path component, after dropping
empty and `"."` components (as `PurePosixPath` normalisation does); `""` when
no component remains. -/
def pathName (s : String) : String :=
  ((((pySplit s '/')).filter (fun c => c != "" && c != ".")).getLast?).getD ""

/-! ## Static tables of the script -/

/-- One value of the `MODEL_REGISTRY` dict. -/
structure RegistryEntry where
  repo : String
  description : String
  architecture : String
  size_mb : Nat
deriving Repr, DecidableEq

/-- `MODEL_REGISTRY`, in the script's definition (insertion) order. -/
def MODEL_REGISTRY : List (String × RegistryEntry) :=
  [("flan-t5-small",
    { repo := "Xenova/flan-t5-small",
      description := "FLAN-T5 Small (60M params) - encoder-decoder for summarization/QA",
      architecture := "t5", size_mb := 300 }),
   ("flan-t5-base",
    { repo := "Xenova/flan-t5-base",
      description := "FLAN-T5 Base (220M params) - encoder-decoder for summarization/QA",
      architecture := "t5", size_mb := 900 }),
   ("flan-t5-large",
    { repo := "dmmagdal/flan-t5-large-onnx",
      description := "FLAN-T5 Large (770M params) - encoder-decoder for summarization/QA",
      architecture := "t5", size_mb := 3000 }),
   ("distilbart",
    { repo := "Xenova/distilbart-cnn-12-6",
      description := "DistilBART (306M params) - encoder-decoder for summarization",
      architecture := "bart", size_mb := 1200 }),
   ("qwen3",
    { repo := "onnx-community/Qwen3-1.7B-ONNX",
      description := "Qwen 3 1.7B Instruct - decoder-only chat model",
      architecture := "qwen", size_mb := 6000 }),
   ("llama3",
    { repo := "onnx-community/Llama-3.2-1B-Instruct-ONNX",
      description := "Llama 3.2 1B Instruct - decoder-only chat model",
      architecture := "llama", size_mb := 5000 }),
   ("phi3",
    { repo := "microsoft/Phi-3-mini-128k-instruct-onnx",
      description := "Phi-3 Mini 128k Instruct - decoder-only chat model",
      architecture := "phi", size_mb := 7000 })]

/-- `VARIANT_PATTERNS`, in the script's definition order. -/
def VARIANT_PATTERNS : List (String × List String) :=
  [("full", ["encoder_model.onnx", "decoder_model.onnx", "decoder_with_past_model.onnx",
             "model.onnx", "decoder_model_merged.onnx"]),
   ("fp16", ["_fp16.onnx", "-fp16.onnx"]),
   ("int8", ["_int8.onnx", "-int8.onnx", "_quantized.onnx"]),
   ("q4", ["_int4.onnx", "-int4.onnx", "_q4.onnx", "-q4.onnx"])]

/-- `VARIANT_PATTERNS.values()` in insertion order. -/
def variantPatternValues : List (List String) :=
  VARIANT_PATTERNS.map (fun p => p.2)

/-- Python `VARIANT_PATTERNS.get(v, [])`. -/
def variantPatternsGet (v : String) : List String :=
  match VARIANT_PATTERNS.find? (fun p => p.1 == v) with
  | some p => p.2
  | none => []

/-- `ESSENTIAL_FILES`. -/
def ESSENTIAL_FILES : List String :=
  ["config.json", "generation_config.json", "tokenizer_config.json", "tokenizer.json",
   "special_tokens_map.json", "vocab.json", "merges.txt", "vocab.txt",
   "sentencepiece.bpe.model", "tokenizer.model"]

/-! ## resolve_repo_id -/

/-- Python `model_name in MODEL_REGISTRY` followed by `MODEL_REGISTRY[model_name]`:
exact (case-sensitive) key lookup. -/
def registryLookup (name : String) : Option RegistryEntry :=
  match MODEL_REGISTRY.find? (fun p => p.1 == name) with
  | some p => some p.2
  | none => none

/-- `ModelDownloader.resolve_repo_id`: exact registry key, else verbatim when the
name contains a slash, else the first registry key containing the lowercased
input as a substring of its lowercased key, else a `ValueError` (`Except.error`). -/
def resolve_repo_id (model_name : String) : Except String String :=
  match registryLookup model_name with
  | some entry => .ok entry.repo
  | none =>
    if pyContains model_name "/" then .ok model_name
    else
      match MODEL_REGISTRY.find? (fun p => pyContains (pyLower p.1) (pyLower model_name)) with
      | some p => .ok p.2.repo
      | none => .error ("Unknown model: " ++ model_name ++ ". Use --list to see available models.")

/-- Which branch of `resolve_repo_id` fires for a given input. -/
inductive ResolveBranch where
  | exactAlias : ResolveBranch
  | verbatimRepo : ResolveBranch
  | substringAlias : ResolveBranch
  | unknown : ResolveBranch
deriving Repr, DecidableEq

/-- The branch of `resolve_repo_id` taken on a given input. -/
def resolveBranch (model_name : String) : ResolveBranch :=
  match registryLookup model_name with
  | some _ => .exactAlias
  | none =>
    if pyContains model_name "/" then .verbatimRepo
    else
      match MODEL_REGISTRY.find? (fun p => pyContains (pyLower p.1) (pyLower model_name)) with
      | some _ => .substringAlias
      | none => .unknown

/-- The registry short name chosen by the substring-match fallback (`matches[0]`),
when one exists. -/
def substringMatchName (model_name : String) : Option String :=
  (MODEL_REGISTRY.find? (fun p => pyContains (pyLower p.1) (pyLower model_name))).map (fun p => p.1)

/-! ## filter_files_by_variants -/

/-- The five base-model filenames excluded by the five inequality tests inside the
`full` branch (these are exactly the entries of the `full` pattern list). -/
def isFullBasePattern (p : String) : Bool :=
  p == "encoder_model.onnx" || p == "decoder_model.onnx" ||
  p == "decoder_with_past_model.onnx" || p == "model.onnx" ||
  p == "decoder_model_merged.onnx"

/-- The inner generator of the `full` branch: some pattern drawn from any value list
of `VARIANT_PATTERNS`, other than the five excluded base names, occurs in the
lowercased file name. -/
def fullQuantMatch (fileLower : String) : Bool :=
  (variantPatternValues.flatMap id).any
    (fun p => !(isFullBasePattern p) && pyContains fileLower p)

/-- The literal list of base names tested on lines 206-208 of the script. -/
def FULL_BASE_NAMES : List String :=
  ["encoder_model.onnx", "decoder_model.onnx", "decoder_with_past_model.onnx",
   "model.onnx", "decoder_model_merged.onnx"]

/-- The per-variant test of the inner loop of `filter_files_by_variants`: the `full`
branch requires no non-base pattern to occur and some base name to occur; every
other variant tag matches when any of its `VARIANT_PATTERNS.get(variant, [])`
patterns occurs. -/
def matchesVariant (variant : String) (fileLower : String) : Bool :=
  if variant == "full" then
    !(fullQuantMatch fileLower) && FULL_BASE_NAMES.any (fun base => pyContains fileLower base)
  else
    (variantPatternsGet variant).any (fun p => pyContains fileLower p)

/-- A path is an ONNX candidate when it ends with `.onnx` or `.onnx_data`. -/
def isOnnxCandidate (filePath : String) : Bool :=
  pyEndsWith filePath ".onnx" || pyEndsWith filePath ".onnx_data"

/-- Whether one file of the input list is appended to `onnx_files`: it must be an
ONNX candidate and some requested variant must match it (the `break` after the
first matching variant means each occurrence is appended at most once, which is
exactly `List.any`). -/
def onnxFileMatch (variants : List String) (filePath : String) : Bool :=
  isOnnxCandidate filePath && variants.any (fun v => matchesVariant v (pyLower filePath))

/-- Whether one file of the input list is appended to `config_files`: its base name
is essential, or (`elif`, line 225) the lowercased path contains "onnx" and its base
name is essential. -/
def configFileMatch (filePath : String) : Bool :=
  if ESSENTIAL_FILES.contains (pathName filePath) then true
  else if pyContains (pyLower filePath) "onnx" && ESSENTIAL_FILES.contains (pathName filePath) then
    true
  else false

/-- Python `list(dict.fromkeys(l))` body: keep each element's first occurrence. -/
def dedupGo (seen : List String) : List String → List String
  | [] => []
  | x :: xs =>
    match seen.contains x with
    | true => dedupGo seen xs
    | false => x :: dedupGo (x :: seen) xs

/-- Python `list(dict.fromkeys(l))`: order-preserving deduplication. -/
def dedupKeepFirst (l : List String) : List String :=
  dedupGo [] l

/-- The dict returned by `filter_files_by_variants`. -/
structure FilterResult where
  onnx : List String
  config : List String
deriving Repr, DecidableEq

/-- The default variant list substituted when `variants is None`. -/
def DEFAULT_VARIANTS : List String :=
  ["full", "fp16", "int8", "q4"]

/-- `ModelDownloader.filter_files_by_variants`: substitute the default list for
`None`, normalise each tag by `v.lower().strip()`, collect matching ONNX files and
essential config files in input order, and deduplicate both lists keeping first
occurrences. -/
def filter_files_by_variants (all_files : List String) (variants : Option (List String)) :
    FilterResult :=
  let vs := (variants.getD DEFAULT_VARIANTS).map (fun v => pyStrip (pyLower v))
  { onnx := dedupKeepFirst (all_files.filter (onnxFileMatch vs)),
    config := dedupKeepFirst (all_files.filter configFileMatch) }

/-! ## download_model directory naming -/

/-- The `dir_name` computed by `download_model` (lines 295-298): the model name plus
"-HF" when the name is an exact registry key, else the resolved repo id with
slashes replaced by dashes, plus "-HF".  Resolution failure propagates. -/
def download_model_dir_name (model_name : String) : Except String String :=
  match resolve_repo_id model_name with
  | .error e => .error e
  | .ok repo_id =>
    if (registryLookup model_name).isSome then .ok (model_name ++ "-HF")
    else .ok (replaceSlashWithDash repo_id ++ "-HF")

/-- The `local_dir` of `download_model`: `self.output_dir / dir_name`. -/
def download_model_local_dir (output_dir model_name : String) : Except String String :=
  (download_model_dir_name model_name).map (fun d => output_dir ++ "/" ++ d)

/-! ## parse_variants and the argument-validation stage of main -/

/-- The `valid_variants` list of `parse_variants`. -/
def VALID_VARIANTS : List String :=
  ["full", "fp16", "int8", "q4"]

/-- `parse_variants`: a falsy argument (absent option or empty string) yields
`None`; otherwise split on commas, normalise each token by `v.strip().lower()`,
and raise `ValueError` (`Except.error`) on the first token outside
`valid_variants`. -/
def parse_variants (variants_str : Option String) : Except String (Option (List String)) :=
  match variants_str with
  | none => .ok none
  | some s =>
    match s == "" with
    | true => .ok none
    | false =>
      match ((pySplit s ',').map (fun v => pyLower (pyStrip v))).find?
          (fun v => !(VALID_VARIANTS.contains v)) with
      | some v => .error ("Invalid variant: " ++ v ++ ". Valid options: full, fp16, int8, q4")
      | none => .ok (some ((pySplit s ',').map (fun v => pyLower (pyStrip v))))

/-- Outcome of the pre-network phase of `main`: either the process terminates with
an exit status before any repository listing or file fetch, or it proceeds to
`download_model` (where network access begins) with the parsed variants. -/
inductive MainOutcome where
  | exitWith : Nat → MainOutcome
  | proceedToDownload : Option (List String) → MainOutcome
deriving Repr, DecidableEq

/-- The variant-validation stage of `main` (lines 455-459): a `ValueError` from
`parse_variants` is routed to `parser.error`, and `argparse.ArgumentParser.error`
prints the message and terminates the process with exit status 2.  Only a
successful parse reaches `download_model`. -/
def main_variants_stage (variants_arg : Option String) : MainOutcome :=
  match parse_variants variants_arg with
  | .error _ => .exitWith 2
  | .ok vs => .proceedToDownload vs

/-! ## download_files

The filesystem and network effects are abstracted: `existing` is the list of
destination paths already present on disk, and `fetchOk f` says whether
`hf_hub_download` would succeed for file `f` (an exception is raised otherwise
and caught by the per-file handler).  A successful fetch makes the file exist. -/

/-- Result of one `download_files` batch: the returned `downloaded` list, the list
of files for which a fetch was issued (successful or not), and the files present
on disk afterwards. -/
structure DownloadState where
  downloaded : List String
  fetched : List String
  existing : List String
deriving Repr, DecidableEq

/-- `ModelDownloader.download_files`: for each file in order, if its destination
exists it is recorded without a fetch; otherwise a fetch is issued, a success is
recorded and materialises the file, and a failure is caught and skipped, never
interrupting the remaining files. -/
def download_files (fetchOk : String → Bool) (existing : List String) :
    List String → DownloadState
  | [] => { downloaded := [], fetched := [], existing := existing }
  | f :: rest =>
    match existing.contains f, fetchOk f with
    | true, _ =>
      let s := download_files fetchOk existing rest
      { s with downloaded := f :: s.downloaded }
    | false, true =>
      let s := download_files fetchOk (f :: existing) rest
      { s with downloaded := f :: s.downloaded, fetched := f :: s.fetched }
    | false, false =>
      let s := download_files fetchOk existing rest
      { s with fetched := f :: s.fetched }

/-! ## Spec-side predicate for the refinement claim -/

/-- The two-step `full`-variant predicate as the specification restates it: the
lowercased name contains one of the five base-model filenames AND contains no
literal substring from the fp16, int8, or q4 pattern sets. -/
def specFullPredicate (filePath : String) : Bool :=
  let fl := pyLower filePath
  (FULL_BASE_NAMES.any (fun b => pyContains fl b)) &&
  !((variantPatternsGet "fp16" ++ variantPatternsGet "int8" ++ variantPatternsGet "q4").any
      (fun p => pyContains fl p))

/-! ## Helper lemmas -/

theorem mem_dedupGo (x : String) (l : List String) :
    ∀ seen, x ∈ dedupGo seen l ↔ x ∈ l ∧ x ∉ seen := by
  induction l with
  | nil => intro seen; simp [dedupGo]
  | cons a as ih =>
    intro seen
    rw [dedupGo]
    cases hc : seen.contains a with
    | true =>
      have ha : a ∈ seen := List.elem_iff.mp hc
      simp only [ih, List.mem_cons]
      constructor
      · rintro ⟨hx, hs⟩; exact ⟨Or.inr hx, hs⟩
      · rintro ⟨rfl | hx, hs⟩
        · exact absurd ha hs
        · exact ⟨hx, hs⟩
    | false =>
      have ha : a ∉ seen := by
        intro hm
        have hct : seen.contains a = true := List.elem_iff.mpr hm
        rw [hct] at hc
        exact Bool.noConfusion hc
      simp only [List.mem_cons, ih]
      constructor
      · rintro (rfl | ⟨hx, hs⟩)
        · exact ⟨Or.inl rfl, ha⟩
        · exact ⟨Or.inr hx, fun hxs => hs (Or.inr hxs)⟩
      · rintro ⟨rfl | hx, hs⟩
        · exact Or.inl rfl
        · by_cases hxa : x = a
          · exact Or.inl hxa
          · exact Or.inr ⟨hx, fun h => h.elim hxa hs⟩

theorem mem_dedupKeepFirst (x : String) (l : List String) :
    x ∈ dedupKeepFirst l ↔ x ∈ l := by
  rw [dedupKeepFirst, mem_dedupGo]
  simp

theorem mem_filter_onnx (files : List String) (v : Option (List String)) (x : String) :
    x ∈ (filter_files_by_variants files v).onnx ↔
      x ∈ files ∧
        onnxFileMatch ((v.getD DEFAULT_VARIANTS).map (fun s => pyStrip (pyLower s))) x = true := by
  rw [filter_files_by_variants]
  simp only [mem_dedupKeepFirst, List.mem_filter]

theorem mem_filter_config (files : List String) (v : Option (List String)) (x : String) :
    x ∈ (filter_files_by_variants files v).config ↔
      x ∈ files ∧ configFileMatch x = true := by
  rw [filter_files_by_variants]
  simp only [mem_dedupKeepFirst, List.mem_filter]

/-! ## Claim theorems -/

/-- Claim C1: a file named `model_fp16.onnx` is never in the onnx output when the
requested variant set is exactly `full`; a file named `model.onnx` is in the onnx
output whenever it is in the input and `full` is the requested set, and never in
the onnx output when the requested set is exactly `int8`. -/
theorem variant_exclusivity (files : List String) :
    "model_fp16.onnx" ∉ (filter_files_by_variants files (some ["full"])).onnx ∧
    ("model.onnx" ∈ files →
      "model.onnx" ∈ (filter_files_by_variants files (some ["full"])).onnx) ∧
    "model.onnx" ∉ (filter_files_by_variants files (some ["int8"])).onnx := by
  refine ⟨?_, ?_, ?_⟩
  · intro h
    exact absurd ((mem_filter_onnx files (some ["full"]) "model_fp16.onnx").mp h).2 (by decide)
  · intro hmem
    exact (mem_filter_onnx files (some ["full"]) "model.onnx").mpr ⟨hmem, by decide⟩
  · intro h
    exact absurd ((mem_filter_onnx files (some ["int8"]) "model.onnx").mp h).2 (by decide)

/-- Witness for C1: the theorem applied to concrete one-file lists. -/
theorem variant_exclusivity_witness :
    "model.onnx" ∈ (filter_files_by_variants ["model.onnx"] (some ["full"])).onnx ∧
    "model_fp16.onnx" ∉ (filter_files_by_variants ["model_fp16.onnx"] (some ["full"])).onnx :=
  ⟨(variant_exclusivity ["model.onnx"]).2.1 (by simp),
   (variant_exclusivity ["model_fp16.onnx"]).1⟩

/-- A variant tag outside the four keys of `VARIANT_PATTERNS` matches no file:
the `full` branch is not taken and `VARIANT_PATTERNS.get(v, [])` is empty. -/
theorem matchesVariant_unknown (v : String) (h : v ∉ VALID_VARIANTS) :
    ∀ fl, matchesVariant v fl = false := by
  intro fl
  simp only [VALID_VARIANTS, List.mem_cons, List.not_mem_nil, or_false, not_or] at h
  obtain ⟨h1, h2, h3, h4⟩ := h
  have hv : (v == "full") = false := by
    rw [beq_eq_false_iff_ne]; exact h1
  have hpat : variantPatternsGet v = [] := by
    rw [variantPatternsGet]
    have hnone : VARIANT_PATTERNS.find? (fun p => p.1 == v) = none := by
      rw [List.find?_eq_none]
      intro p hp
      fin_cases hp <;> simp only [beq_iff_eq] <;> intro hh <;>
        first
          | exact h1 hh.symm
          | exact h2 hh.symm
          | exact h3 hh.symm
          | exact h4 hh.symm
    rw [hnone]
  simp [matchesVariant, hv, hpat]

/-- Claim C4 counterexample: an empty variant list is not treated as the full
enumeration — on input `["model.onnx"]` the empty request selects no onnx file
while the full enumeration selects `model.onnx`. -/
theorem empty_variants_counterexample :
    filter_files_by_variants ["model.onnx"] (some []) ≠
      filter_files_by_variants ["model.onnx"] (some ["full", "fp16", "int8", "q4"]) := by
  decide

/-- Claim C4 (amended): only an unspecified (`None`) variant request is treated as
the full enumeration `["full", "fp16", "int8", "q4"]`; an empty variant list
yields an empty onnx list and the same config list as the full enumeration. -/
theorem none_variants_default (files : List String) :
    filter_files_by_variants files none =
      filter_files_by_variants files (some ["full", "fp16", "int8", "q4"]) ∧
    (filter_files_by_variants files (some [])).onnx = [] ∧
    (filter_files_by_variants files (some [])).config =
      (filter_files_by_variants files (some ["full", "fp16", "int8", "q4"])).config := by
  refine ⟨rfl, ?_, rfl⟩
  have hmatch : ∀ x, onnxFileMatch ([] : List String) x = false := by
    intro x; simp [onnxFileMatch]
  have hfil : files.filter (onnxFileMatch ([] : List String)) = [] := by
    rw [List.filter_eq_nil_iff]
    intro a _
    simp [hmatch a]
  show dedupKeepFirst (files.filter (onnxFileMatch ((List.map (fun v => pyStrip (pyLower v)) [])))) = []
  simpa [dedupKeepFirst, dedupGo] using congrArg dedupKeepFirst hfil

/-- Claim C7: the end-to-end filtering scenario of the specification, on the fixed
five-file input list, for requested variants `int8` and `full`. -/
theorem end_to_end_scenario :
    filter_files_by_variants
        ["encoder_model.onnx", "encoder_model_int8.onnx", "decoder_model.onnx",
         "tokenizer.json", "config.json"] (some ["int8"]) =
      { onnx := ["encoder_model_int8.onnx"], config := ["tokenizer.json", "config.json"] } ∧
    (filter_files_by_variants
        ["encoder_model.onnx", "encoder_model_int8.onnx", "decoder_model.onnx",
         "tokenizer.json", "config.json"] (some ["full"])).onnx =
      ["encoder_model.onnx", "decoder_model.onnx"] := by
  decide

/-- Claim C2: for every filename ending in `.onnx` or `.onnx_data`, the code's
nested `full`-variant condition (no pattern from any value list of
`VARIANT_PATTERNS` other than the five excluded base names occurs in the
lowercased name, and some base name occurs in it) agrees with the
specification's two-step predicate (contains a base-model filename AND contains
no literal substring from the fp16, int8, or q4 pattern sets). -/
theorem full_variant_code_matches_spec (f : String)
    (h : isOnnxCandidate f = true) :
    matchesVariant "full" (pyLower f) = specFullPredicate f := by
  show (!(fullQuantMatch (pyLower f)) &&
      FULL_BASE_NAMES.any (fun base => pyContains (pyLower f) base)) = specFullPredicate f
  have h2 : ∀ L : List String, (∀ p ∈ L, isFullBasePattern p = false) →
      L.any (fun p => !(isFullBasePattern p) && pyContains (pyLower f) p) =
        L.any (fun p => pyContains (pyLower f) p) := by
    intro L hL
    induction L with
    | nil => rfl
    | cons b bs ihb =>
      rw [List.any_cons, List.any_cons, hL b (List.mem_cons_self b bs),
        ihb (fun p hp => hL p (List.mem_cons_of_mem b hp))]
      rfl
  have hq : fullQuantMatch (pyLower f) =
      ((variantPatternsGet "fp16" ++ variantPatternsGet "int8" ++ variantPatternsGet "q4").any
        (fun p => pyContains (pyLower f) p)) := by
    have hlist : variantPatternValues.flatMap id =
        FULL_BASE_NAMES ++
          (variantPatternsGet "fp16" ++ variantPatternsGet "int8" ++ variantPatternsGet "q4") := by
      decide
    have h1 : FULL_BASE_NAMES.any
        (fun p => !(isFullBasePattern p) && pyContains (pyLower f) p) = false := by
      have hbase : ∀ p ∈ FULL_BASE_NAMES, isFullBasePattern p = true := by decide
      rw [List.any_eq_false]
      intro p hp
      rw [hbase p hp]
      simp
    rw [fullQuantMatch, hlist, List.any_append, h1, Bool.false_or, h2 _ (by decide)]
  rw [hq, specFullPredicate, Bool.and_comm]

/-- Witness for C2: the equivalence applied to the concrete candidate
`model.onnx`. -/
theorem full_variant_code_matches_spec_witness :
    isOnnxCandidate "model.onnx" = true ∧
    matchesVariant "full" (pyLower "model.onnx") = specFullPredicate "model.onnx" :=
  ⟨by decide, full_variant_code_matches_spec "model.onnx" (by decide)⟩

/-- Claim C8: for every input file list, the config component of
`filter_files_by_variants` is identical for any two variant requests; and any
input path whose base name is `tokenizer.json` appears in the returned config
files. -/
theorem config_independent_of_variants (files : List String)
    (v1 v2 : Option (List String)) :
    (filter_files_by_variants files v1).config = (filter_files_by_variants files v2).config ∧
    ∀ p, p ∈ files → pathName p = "tokenizer.json" →
      p ∈ (filter_files_by_variants files v1).config := by
  refine ⟨rfl, ?_⟩
  intro p hp hname
  rw [mem_filter_config]
  refine ⟨hp, ?_⟩
  rw [configFileMatch, hname]
  rfl

/-- Witness for C8: the theorem applied to a one-file list holding
`onnx/tokenizer.json` with two different variant requests. -/
theorem config_independent_of_variants_witness :
    (filter_files_by_variants ["onnx/tokenizer.json"] (some ["full"])).config =
      (filter_files_by_variants ["onnx/tokenizer.json"] none).config ∧
    "onnx/tokenizer.json" ∈
      (filter_files_by_variants ["onnx/tokenizer.json"] (some ["full"])).config :=
  ⟨(config_independent_of_variants ["onnx/tokenizer.json"] (some ["full"]) none).1,
   (config_independent_of_variants ["onnx/tokenizer.json"] (some ["full"]) none).2
     "onnx/tokenizer.json" (by simp) (by decide)⟩

/-- Claim C10: `filter_files_by_variants` is total over arbitrary tag strings; a
tag whose normalisation lies outside the four known variants is looked up with
the empty default pattern list and contributes no files, so deleting it from the
request changes nothing; and tags are lowercased and stripped before matching,
so the request `["INT8 "]` behaves exactly like `["int8"]`. -/
theorem unknown_tags_contribute_nothing (files ts1 ts2 : List String) (t : String)
    (h : pyStrip (pyLower t) ∉ VALID_VARIANTS) :
    filter_files_by_variants files (some (ts1 ++ t :: ts2)) =
      filter_files_by_variants files (some (ts1 ++ ts2)) ∧
    filter_files_by_variants files (some ["INT8 "]) =
      filter_files_by_variants files (some ["int8"]) := by
  constructor
  · have hfun : ∀ x ∈ files,
        onnxFileMatch ((ts1 ++ t :: ts2).map (fun v => pyStrip (pyLower v))) x =
          onnxFileMatch ((ts1 ++ ts2).map (fun v => pyStrip (pyLower v))) x := by
      intro x _
      simp [onnxFileMatch, List.any_append, matchesVariant_unknown _ h]
    rw [filter_files_by_variants, filter_files_by_variants]
    simp only [Option.getD_some]
    rw [List.filter_congr hfun]
  · have hmap : (["INT8 "].map (fun v => pyStrip (pyLower v))) =
        (["int8"].map (fun v => pyStrip (pyLower v))) := by decide
    rw [filter_files_by_variants, filter_files_by_variants]
    simp only [Option.getD_some]
    rw [hmap]

/-- Witness for C10: deleting the unknown tag `bogus` from a request leaves the
result unchanged on a concrete file list. -/
theorem unknown_tags_contribute_nothing_witness :
    filter_files_by_variants ["model.onnx"] (some ["full", "bogus"]) =
      filter_files_by_variants ["model.onnx"] (some ["full"]) :=
  (unknown_tags_contribute_nothing ["model.onnx"] ["full"] [] "bogus" (by decide)).1

/-- Claim C6: the four-branch precedence of `resolve_repo_id`, first match wins:
exact registry key, then verbatim pass-through of names containing `/`, then the
first registry key (in definition order) whose lowercased form contains the
lowercased input, else an UnknownModel error. -/
theorem resolve_repo_id_precedence (s : String) :
    (∀ e, registryLookup s = some e → resolve_repo_id s = .ok e.repo) ∧
    (registryLookup s = none → pyContains s "/" = true → resolve_repo_id s = .ok s) ∧
    (registryLookup s = none → pyContains s "/" = false →
      ∀ p, MODEL_REGISTRY.find? (fun q => pyContains (pyLower q.1) (pyLower s)) = some p →
        resolve_repo_id s = .ok p.2.repo) ∧
    (registryLookup s = none → pyContains s "/" = false →
      MODEL_REGISTRY.find? (fun q => pyContains (pyLower q.1) (pyLower s)) = none →
      resolve_repo_id s = .error ("Unknown model: " ++ s ++
        ". Use --list to see available models.")) := by
  refine ⟨?_, ?_, ?_, ?_⟩
  · intro e he; simp [resolve_repo_id, he]
  · intro hn hs; simp [resolve_repo_id, hn, hs]
  · intro hn hs p hp; simp [resolve_repo_id, hn, hs, hp]
  · intro hn hs hp; simp [resolve_repo_id, hn, hs, hp]

/-- Witness for C6: one concrete input per branch of the precedence. -/
theorem resolve_repo_id_precedence_witness :
    resolve_repo_id "qwen3" = .ok "onnx-community/Qwen3-1.7B-ONNX" ∧
    resolve_repo_id "some/repo" = .ok "some/repo" ∧
    resolve_repo_id "qwen" = .ok "onnx-community/Qwen3-1.7B-ONNX" ∧
    resolve_repo_id "zzz" = .error "Unknown model: zzz. Use --list to see available models." :=
  ⟨(resolve_repo_id_precedence "qwen3").1
      { repo := "onnx-community/Qwen3-1.7B-ONNX",
        description := "Qwen 3 1.7B Instruct - decoder-only chat model",
        architecture := "qwen", size_mb := 6000 } (by decide),
   (resolve_repo_id_precedence "some/repo").2.1 (by decide) (by decide),
   (resolve_repo_id_precedence "qwen").2.2.1 (by decide) (by decide)
      ("qwen3",
        { repo := "onnx-community/Qwen3-1.7B-ONNX",
          description := "Qwen 3 1.7B Instruct - decoder-only chat model",
          architecture := "qwen", size_mb := 6000 }) (by decide),
   (resolve_repo_id_precedence "zzz").2.2.2 (by decide) (by decide) (by decide)⟩

/-- Claim C3 counterexample: the model name `flan` resolves through a registry
alias by partial substring match (short name `flan-t5-small`), yet the download
directory is formed from the repo id with `/` replaced by `-`, not from the
registry short name plus the `-HF` marker. -/
theorem alias_dir_name_counterexample :
    resolveBranch "flan" = ResolveBranch.substringAlias ∧
    substringMatchName "flan" = some "flan-t5-small" ∧
    download_model_local_dir "models" "flan" = .ok "models/Xenova-flan-t5-small-HF" ∧
    ("Xenova-flan-t5-small-HF" : String) ≠ "flan-t5-small" ++ "-HF" := by
  exact ⟨by decide, by decide, by rfl, by decide⟩

/-- Claim C3 (amended): the download directory is the output directory joined
with the registry short name plus `-HF` exactly when the model name is an exact
registry key; for every other successfully resolved name — verbatim repo id or
partial substring alias match — it is the resolved repo id with `/` replaced by
`-`, plus `-HF`. -/
theorem download_dir_layout (out name : String) :
    ((registryLookup name).isSome = true →
      download_model_local_dir out name = .ok (out ++ "/" ++ (name ++ "-HF"))) ∧
    (∀ repo, (registryLookup name).isSome = false → resolve_repo_id name = .ok repo →
      download_model_local_dir out name =
        .ok (out ++ "/" ++ (replaceSlashWithDash repo ++ "-HF"))) := by
  constructor
  · intro hsome
    obtain ⟨e, he⟩ := Option.isSome_iff_exists.mp hsome
    simp [download_model_local_dir, download_model_dir_name, resolve_repo_id, he]
    rfl
  · intro repo hnone hok
    simp [download_model_local_dir, download_model_dir_name, hok, hnone]
    rfl

/-- Witness for C3 (amended): the layout at a registry key and at a partial
alias match. -/
theorem download_dir_layout_witness :
    download_model_local_dir "models" "qwen3" = .ok ("models" ++ "/" ++ ("qwen3" ++ "-HF")) ∧
    download_model_local_dir "models" "flan" =
      .ok ("models" ++ "/" ++ (replaceSlashWithDash "Xenova/flan-t5-small" ++ "-HF")) :=
  ⟨(download_dir_layout "models" "qwen3").1 (by decide),
   (download_dir_layout "models" "flan").2 "Xenova/flan-t5-small" (by decide) (by rfl)⟩

/-- Claim C5 counterexample: with `--variants int9` the validation stage
terminates the process, but with exit status 2 (the status of argparse's
`parser.error`), not with exit status 1 as claimed. -/
theorem invalid_variant_exit_code_counterexample :
    main_variants_stage (some "int9") = MainOutcome.exitWith 2 ∧
    main_variants_stage (some "int9") ≠ MainOutcome.exitWith 1 := by
  decide

/-- Claim C5 (amended): a --variants argument containing a token outside
{full, fp16, int8, q4} makes the process exit with status 2 (a non-zero
argparse argument error), and it never reaches `proceedToDownload`, the point
where repository listing and file fetching begin — so no network call is
issued. -/
theorem invalid_variant_exits_before_network (s : String) (hne : s ≠ "")
    (hbad : ∃ v ∈ (pySplit s ',').map (fun v => pyLower (pyStrip v)), v ∉ VALID_VARIANTS) :
    main_variants_stage (some s) = MainOutcome.exitWith 2 ∧
    ∀ vs, main_variants_stage (some s) ≠ MainOutcome.proceedToDownload vs := by
  have hfind : ((pySplit s ',').map (fun v => pyLower (pyStrip v))).find?
      (fun v => !(VALID_VARIANTS.contains v)) ≠ none := by
    obtain ⟨v, hv, hnv⟩ := hbad
    intro hnone
    rw [List.find?_eq_none] at hnone
    have hc : VALID_VARIANTS.contains v = false := by
      rw [← Bool.not_eq_true]
      intro hcc
      exact hnv (List.elem_iff.mp hcc)
    exact hnone v hv (by rw [hc]; rfl)
  have hs : (s == "") = false := beq_eq_false_iff_ne.mpr hne
  cases hf : ((pySplit s ',').map (fun v => pyLower (pyStrip v))).find?
      (fun v => !(VALID_VARIANTS.contains v)) with
  | none => exact absurd hf hfind
  | some v =>
    have hparse : parse_variants (some s) =
        .error ("Invalid variant: " ++ v ++ ". Valid options: full, fp16, int8, q4") := by
      show (match s == "" with
        | true => (Except.ok none : Except String (Option (List String)))
        | false =>
          match ((pySplit s ',').map (fun v => pyLower (pyStrip v))).find?
              (fun v => !(VALID_VARIANTS.contains v)) with
          | some v => .error ("Invalid variant: " ++ v ++ ". Valid options: full, fp16, int8, q4")
          | none => .ok (some ((pySplit s ',').map (fun v => pyLower (pyStrip v))))) = _
      rw [hs, hf]
    have h2 : main_variants_stage (some s) = MainOutcome.exitWith 2 := by
      show (match parse_variants (some s) with
        | .error _ => MainOutcome.exitWith 2
        | .ok vs => MainOutcome.proceedToDownload vs) = _
      rw [hparse]
    refine ⟨h2, fun vs hh => ?_⟩
    rw [h2] at hh
    exact MainOutcome.noConfusion hh

/-- Witness for C5 (amended): the concrete invalid token `int9`. -/
theorem invalid_variant_exits_before_network_witness :
    main_variants_stage (some "int9") = MainOutcome.exitWith 2 :=
  (invalid_variant_exits_before_network "int9" (by decide)
    ⟨"int9", by decide, by decide⟩).1

/-- Membership in the `downloaded` list returned by a `download_files` batch:
exactly the files of the batch that were already present or whose fetch
succeeds. -/
theorem download_files_downloaded_iff (ok : String → Bool) (x : String) :
    ∀ (files existing : List String),
      (x ∈ (download_files ok existing files).downloaded ↔
        x ∈ files ∧ (x ∈ existing ∨ ok x = true)) := by
  intro files
  induction files with
  | nil => intro existing; simp [download_files]
  | cons f rest ih =>
    intro existing
    rw [download_files]
    cases hc : existing.contains f with
    | true =>
      have hf : f ∈ existing := List.elem_iff.mp hc
      simp only [List.mem_cons, ih]
      constructor
      · rintro (rfl | hx)
        · exact ⟨Or.inl rfl, Or.inl hf⟩
        · exact ⟨Or.inr hx.1, hx.2⟩
      · rintro ⟨rfl | hx, hor⟩
        · exact Or.inl rfl
        · exact Or.inr ⟨hx, hor⟩
    | false =>
      have hfne : f ∉ existing := by
        intro hm
        have hct : existing.contains f = true := List.elem_iff.mpr hm
        rw [hct] at hc
        exact Bool.noConfusion hc
      cases hok : ok f with
      | true =>
        simp only [List.mem_cons, ih]
        constructor
        · rintro (rfl | ⟨hx1, hor⟩)
          · exact ⟨Or.inl rfl, Or.inr hok⟩
          · refine ⟨Or.inr hx1, ?_⟩
            rcases hor with (rfl | hm2) | hk
            · exact Or.inr hok
            · exact Or.inl hm2
            · exact Or.inr hk
        · rintro ⟨rfl | hx, hor⟩
          · exact Or.inl rfl
          · refine Or.inr ⟨hx, ?_⟩
            rcases hor with hm | hk
            · exact Or.inl (Or.inr hm)
            · exact Or.inr hk
      | false =>
        simp only [List.mem_cons, ih]
        constructor
        · rintro ⟨hx, hor⟩
          exact ⟨Or.inr hx, hor⟩
        · rintro ⟨rfl | hx, hor⟩
          · rcases hor with hm | hk
            · exact absurd hm hfne
            · rw [hok] at hk; exact Bool.noConfusion hk
          · exact ⟨hx, hor⟩

/-- A file already present on disk is never fetched by `download_files`. -/
theorem download_files_not_fetched (ok : String → Bool) (x : String) :
    ∀ (files existing : List String), x ∈ existing →
      x ∉ (download_files ok existing files).fetched := by
  intro files
  induction files with
  | nil => intro existing hx; simp [download_files]
  | cons f rest ih =>
    intro existing hx
    rw [download_files]
    cases hc : existing.contains f with
    | true => exact ih existing hx
    | false =>
      have hfne : f ∉ existing := by
        intro hm
        have hct : existing.contains f = true := List.elem_iff.mpr hm
        rw [hct] at hc
        exact Bool.noConfusion hc
      have hxf : x ≠ f := fun hh => hfne (hh ▸ hx)
      cases hok : ok f with
      | true =>
        simp only [List.mem_cons, not_or]
        exact ⟨hxf, ih (f :: existing) (List.mem_cons_of_mem f hx)⟩
      | false =>
        simp only [List.mem_cons, not_or]
        exact ⟨hxf, ih existing hx⟩

/-- Claim C9: per-file behaviour of a `download_files` batch — an
already-present file is recorded without a fetch; a fetch failure on one file
leaves the processing of the remaining files (and the returned list) exactly as
if the failed file were skipped; and the returned list contains exactly the
files already present or successfully fetched, never the failed ones. -/
theorem download_files_batch_policy (ok : String → Bool)
    (existing files rest : List String) (x f : String) :
    (x ∈ existing → (x ∈ files → x ∈ (download_files ok existing files).downloaded) ∧
      x ∉ (download_files ok existing files).fetched) ∧
    (existing.contains f = false → ok f = false →
      (download_files ok existing (f :: rest)).downloaded =
        (download_files ok existing rest).downloaded ∧
      (download_files ok existing (f :: rest)).fetched =
        f :: (download_files ok existing rest).fetched ∧
      (download_files ok existing (f :: rest)).existing =
        (download_files ok existing rest).existing) ∧
    (x ∈ (download_files ok existing files).downloaded ↔
      x ∈ files ∧ (x ∈ existing ∨ ok x = true)) := by
  refine ⟨?_, ?_, download_files_downloaded_iff ok x files existing⟩
  · intro hx
    exact ⟨fun hmem => (download_files_downloaded_iff ok x files existing).mpr
        ⟨hmem, Or.inl hx⟩,
      download_files_not_fetched ok x files existing hx⟩
  · intro hc hok
    rw [download_files, hc, hok]
    exact ⟨rfl, rfl, rfl⟩

/-- Witness for C9: a concrete batch with one already-present file, one failing
fetch and one successful fetch. -/
theorem download_files_batch_policy_witness :
    "have.onnx" ∈ (download_files (fun s => s != "bad") ["have.onnx"]
        ["have.onnx", "bad", "new.onnx"]).downloaded ∧
    "have.onnx" ∉ (download_files (fun s => s != "bad") ["have.onnx"]
        ["have.onnx", "bad", "new.onnx"]).fetched ∧
    (download_files (fun s => s != "bad") ["have.onnx"]
        ("bad" :: ["new.onnx"])).downloaded =
      (download_files (fun s => s != "bad") ["have.onnx"] ["new.onnx"]).downloaded ∧
    "bad" ∉ (download_files (fun s => s != "bad") ["have.onnx"]
        ["have.onnx", "bad", "new.onnx"]).downloaded :=
  ⟨((download_files_batch_policy (fun s => s != "bad") ["have.onnx"]
      ["have.onnx", "bad", "new.onnx"] ["new.onnx"] "have.onnx" "bad").1
        (by decide)).1 (by decide),
   ((download_files_batch_policy (fun s => s != "bad") ["have.onnx"]
      ["have.onnx", "bad", "new.onnx"] ["new.onnx"] "have.onnx" "bad").1
        (by decide)).2,
   ((download_files_batch_policy (fun s => s != "bad") ["have.onnx"]
      ["have.onnx", "bad", "new.onnx"] ["new.onnx"] "have.onnx" "bad").2.1
        (by decide) (by decide)).1,
   fun hmem => absurd ((download_files_batch_policy (fun s => s != "bad") ["have.onnx"]
      ["have.onnx", "bad", "new.onnx"] ["new.onnx"] "bad" "bad").2.2.mp hmem)
        (by decide)⟩

end DownloadModel
